import Mathlib

/-!
Verification development for the `sdf_peck` narrow-phase collision library.

The Rust source is embedded shallowly: `f32` arithmetic is modelled by real
arithmetic.  Where an IEEE special value is observable (the NaN produced by the
`0/0` in the sphere-sphere normal computation, and the `f32::INFINITY` sentinel
used by the field marcher), the embedding uses an explicit model (`F32` with
NaN and signed infinities, and `WithTop ℝ`).  The ULP-based collinearity
tolerance of the segment closest-point solver operates on `f32` bit patterns
and is therefore kept as an abstract boolean parameter `ulps`.
-/

namespace SdfPeck

open scoped Classical

noncomputable section

/-- A 3-component vector (`Vec3` / `Vec3A` from the source, components as reals). -/
structure V3 where
  x : ℝ
  y : ℝ
  z : ℝ

instance : Add V3 := ⟨fun a b => ⟨a.x + b.x, a.y + b.y, a.z + b.z⟩⟩

instance : Sub V3 := ⟨fun a b => ⟨a.x - b.x, a.y - b.y, a.z - b.z⟩⟩

instance : Neg V3 := ⟨fun a => ⟨-a.x, -a.y, -a.z⟩⟩

instance : SMul ℝ V3 := ⟨fun c a => ⟨c * a.x, c * a.y, c * a.z⟩⟩

instance : Zero V3 := ⟨⟨0, 0, 0⟩⟩

/-- `Vec3::Y` / `Vec3A::Y`. -/
def V3.Y : V3 := ⟨0, 1, 0⟩

/-- `Vec3::dot`. -/
def V3.dot (a b : V3) : ℝ := a.x * b.x + a.y * b.y + a.z * b.z

/-- `Vec3::length_squared`. -/
def V3.length_squared (a : V3) : ℝ := a.x * a.x + a.y * a.y + a.z * a.z

/-- `Vec3::length`. -/
def V3.length (a : V3) : ℝ := Real.sqrt a.length_squared

/-- `Vec3::distance`. -/
def V3.dist (a b : V3) : ℝ := (a - b).length

/-- Division of a vector by a (nonzero) scalar, as real division componentwise. -/
def V3.divS (a : V3) (c : ℝ) : V3 := ⟨a.x / c, a.y / c, a.z / c⟩

@[simp] theorem V3.add_def (a b : V3) : a + b = ⟨a.x + b.x, a.y + b.y, a.z + b.z⟩ := rfl

@[simp] theorem V3.sub_def (a b : V3) : a - b = ⟨a.x - b.x, a.y - b.y, a.z - b.z⟩ := rfl

@[simp] theorem V3.neg_def (a : V3) : -a = ⟨-a.x, -a.y, -a.z⟩ := rfl

@[simp] theorem V3.smul_def (c : ℝ) (a : V3) : c • a = ⟨c * a.x, c * a.y, c * a.z⟩ := rfl

@[simp] theorem V3.zero_def : (0 : V3) = ⟨0, 0, 0⟩ := rfl

@[simp] theorem V3.zero_x : (0 : V3).x = 0 := rfl

@[simp] theorem V3.zero_y : (0 : V3).y = 0 := rfl

@[simp] theorem V3.zero_z : (0 : V3).z = 0 := rfl

/-- An IEEE `f32` value: finite (modelled as a real), an infinity, or NaN. -/
inductive F32
  | nan
  | inf (pos : Bool)
  | fin (x : ℝ)

namespace F32

/-- IEEE division of two finite values (`x / y` on `f32`): division by zero
gives NaN for a zero numerator and a signed infinity otherwise. -/
def divF (x y : ℝ) : F32 :=
  if y = 0 then (if x = 0 then nan else inf (decide (0 < x))) else fin (x / y)

/-- IEEE multiplication by a finite value. -/
def mulR : F32 → ℝ → F32
  | nan, _ => nan
  | inf s, c => if c = 0 then nan else inf (if 0 < c then s else !s)
  | fin x, c => fin (x * c)

/-- IEEE addition of a finite value on the left. -/
def addL (r : ℝ) : F32 → F32
  | nan => nan
  | inf s => inf s
  | fin x => fin (r + x)

/-- IEEE subtraction of a finite value. -/
def subR : F32 → ℝ → F32
  | nan, _ => nan
  | inf s, _ => inf s
  | fin x, r => fin (x - r)

/-- IEEE negation. -/
def neg : F32 → F32
  | nan => nan
  | inf s => inf (!s)
  | fin x => fin (-x)

/-- IEEE equality (`==` on `f32`): NaN compares unequal to everything,
including itself. -/
def beq : F32 → F32 → Bool
  | fin x, fin y => decide (x = y)
  | inf s, inf t => s == t
  | _, _ => false

@[simp] theorem beq_nan_right : ∀ a : F32, beq a nan = false := by
  intro a; cases a <;> rfl

end F32

/-- A vector of possibly non-finite `f32` components. -/
structure FV3 where
  x : F32
  y : F32
  z : F32

/-- `Vec3A::NAN`. -/
def FV3.nanV : FV3 := ⟨.nan, .nan, .nan⟩

/-- Inclusion of an (everywhere finite) real vector. -/
def FV3.ofV3 (v : V3) : FV3 := ⟨.fin v.x, .fin v.y, .fin v.z⟩

/-- Componentwise IEEE division of a finite vector by a finite scalar. -/
def FV3.div3 (v : V3) (c : ℝ) : FV3 := ⟨F32.divF v.x c, F32.divF v.y c, F32.divF v.z c⟩

/-- Componentwise IEEE multiplication by a finite scalar. -/
def FV3.mulR (v : FV3) (c : ℝ) : FV3 := ⟨v.x.mulR c, v.y.mulR c, v.z.mulR c⟩

/-- Componentwise IEEE addition of a finite vector on the left. -/
def FV3.addL (r : V3) (v : FV3) : FV3 := ⟨v.x.addL r.x, v.y.addL r.y, v.z.addL r.z⟩

/-- Componentwise IEEE subtraction of a finite vector. -/
def FV3.subR (v : FV3) (r : V3) : FV3 := ⟨v.x.subR r.x, v.y.subR r.y, v.z.subR r.z⟩

/-- Componentwise IEEE negation. -/
def FV3.neg (v : FV3) : FV3 := ⟨v.x.neg, v.y.neg, v.z.neg⟩

/-- `Vec3A` equality (glam: `self.cmpeq(rhs).all()`), with IEEE semantics per
component. -/
def FV3.beq (v w : FV3) : Bool := v.x.beq w.x && v.y.beq w.y && v.z.beq w.z

@[simp] theorem FV3.beq_nanV_right (v : FV3) : FV3.beq v FV3.nanV = false := by
  simp [FV3.beq, FV3.nanV]

/-- A rotation (`Quat` acting on vectors): an invertible linear map.  The
source only ever applies a unit quaternion or its inverse to vectors. -/
structure Rot where
  toFun : V3 → V3
  invFun : V3 → V3
  map_add : ∀ v w, toFun (v + w) = toFun v + toFun w
  map_smul : ∀ (c : ℝ) v, toFun (c • v) = c • toFun v
  left_inv : ∀ v, invFun (toFun v) = v
  right_inv : ∀ v, toFun (invFun v) = v

/-- The identity rotation (`Quat::IDENTITY`). -/
def Rot.id : Rot :=
  ⟨fun v => v, fun v => v, fun _ _ => rfl, fun _ _ => rfl, fun _ => rfl, fun _ => rfl⟩

@[simp] theorem Rot.id_toFun (v : V3) : Rot.id.toFun v = v := rfl

@[simp] theorem Rot.id_invFun (v : V3) : Rot.id.invFun v = v := rfl

/-- `Isometry3d`: translation plus rotation. -/
structure Iso where
  translation : V3
  rotation : Rot

/-- Modelled from the spec: `Isometry::translate` comes from the external
`bevy_prototype_sdf` crate, whose source is not part of this repository.
Spec 4.3 states that the sphere-capsule routine reduces to a sphere placed at
the point of the capsule's world axis at parameter `t`, i.e. the translation
argument is applied in the isometry's local (rotated) frame. -/
def Iso.translate (iso : Iso) (v : V3) : Iso :=
  ⟨iso.translation + iso.rotation.toFun v, iso.rotation⟩

/-- `ScaledIsometry3d`. -/
structure ScaledIso where
  iso : Iso
  scale : ℝ

/-- `Sphere`. -/
structure Sphere where
  radius : ℝ

/-- `Capsule3d`. -/
structure Capsule3d where
  radius : ℝ
  half_length : ℝ

/-- An executable SDF (`ExecutableSdf3d`): a distance field with a gradient
field, both evaluated in the surface's unscaled local frame. -/
structure Sdf where
  distance : V3 → ℝ
  gradient : V3 → V3

/-- `Contact` (adder.rs). -/
structure Contact where
  point : FV3
  anchor1 : FV3
  anchor2 : FV3
  normal : FV3
  penetration : ℝ

/-- The arguments of one `ManifoldAdder::push` call, before the
direct/flipped convention is applied. -/
structure RawContact where
  point : FV3
  anchor_a : FV3
  anchor_b : FV3
  normal : FV3
  penetration : ℝ

/-- `ManifoldAdder::push` (adder.rs): in flipped mode the anchors are swapped
and the normal negated; point and penetration are unchanged. -/
def applyAdder (flipped : Bool) (r : RawContact) : Contact :=
  { point := r.point
    anchor1 := if flipped then r.anchor_b else r.anchor_a
    anchor2 := if flipped then r.anchor_a else r.anchor_b
    normal := if flipped then r.normal.neg else r.normal
    penetration := r.penetration }

/-- A collision routine accumulates pushes in order; the adder turns them into
contacts. -/
def applyAll (flipped : Bool) (l : List RawContact) : List Contact :=
  l.map (applyAdder flipped)

/-- `f32::clamp`. -/
def clampR (v lo hi : ℝ) : ℝ := max lo (min v hi)

/-- `impl Collider<Sphere> for Sphere::get_collisions` (primitives.rs).
Returns the list of pushes made.  The division `(other - self) / offset` and
everything downstream of it is modelled with IEEE semantics because `offset`
can be zero. -/
def Sphere.get_collisions_sphere (self : Sphere) (self_iso : Iso) (other : Sphere)
    (other_iso : Iso) (pred_dist : ℝ) : List RawContact :=
  let offset := V3.dist self_iso.translation other_iso.translation
  let dist := offset - self.radius - other.radius
  if pred_dist < dist then []
  else
    let self_to_other0 := FV3.div3 (other_iso.translation - self_iso.translation) offset
    let self_to_other :=
      if FV3.beq self_to_other0 FV3.nanV then FV3.ofV3 V3.Y else self_to_other0
    let half_dist := dist * 0.5
    let anchor1 := self_to_other.mulR (self.radius + half_dist)
    let world_point := FV3.addL self_iso.translation anchor1
    let anchor2 := world_point.subR other_iso.translation
    [⟨world_point, anchor1, anchor2, self_to_other, -dist⟩]

/-- `impl Collider<ExecutableSdf3d> for Sphere::get_collisions` (primitives.rs). -/
def Sphere.get_collisions_sdf (self : Sphere) (self_iso : Iso) (sdf : Sdf)
    (sdf_iso : ScaledIso) (pred_dist : ℝ) : List RawContact :=
  let sdf_local_pos :=
    V3.divS (sdf_iso.iso.rotation.invFun (self_iso.translation - sdf_iso.iso.translation))
      sdf_iso.scale
  let distance := sdf.distance sdf_local_pos * sdf_iso.scale
  if distance < self.radius + pred_dist then
    let gradient := sdf.gradient sdf_local_pos
    let world_normal := sdf_iso.iso.rotation.toFun (-gradient)
    let pen := self.radius - distance
    let anchor1 := (self.radius - pen * 0.5) • world_normal
    let world_point := self_iso.translation + anchor1
    let anchor2 := world_point - sdf_iso.iso.translation
    [⟨FV3.ofV3 world_point, FV3.ofV3 anchor1, FV3.ofV3 anchor2, FV3.ofV3 world_normal, pen⟩]
  else []

/-- `impl Collider<Capsule3d> for Sphere::get_collisions` (primitives.rs). -/
def Sphere.get_collisions_capsule (self : Sphere) (self_iso : Iso) (other : Capsule3d)
    (other_iso : Iso) (pred_dist : ℝ) : List RawContact :=
  let capsule_up := other_iso.rotation.toFun V3.Y
  let t :=
    clampR (V3.dot (self_iso.translation - other_iso.translation) capsule_up)
      (-other.half_length) other.half_length
  let capsule_sphere : Sphere := ⟨other.radius⟩
  let capsule_sphere_iso := other_iso.translate ⟨0, t, 0⟩
  self.get_collisions_sphere self_iso capsule_sphere capsule_sphere_iso pred_dist

/-- `f32::EPSILON`. -/
def f32Eps : ℝ := 1 / 2 ^ 23

/-- `closest_points_on_segments` (primitives.rs).  The `ulps_eq!` tolerance on
`a*e` vs `b*b` compares `f32` bit patterns, so it is passed in abstractly. -/
def closest_points_on_segments (ulps : ℝ → ℝ → Bool) (origin1 to_end1 origin2 to_end2 : V3) :
    ℝ × ℝ :=
  let r := origin1 - origin2
  let a := to_end1.length_squared
  let e := to_end2.length_squared
  let c := to_end1.dot r
  let f := to_end2.dot r
  let eps := f32Eps
  if a ≤ eps ∧ e ≤ eps then (0, 0)
  else if a ≤ eps then (0, clampR (f / e) 0 1)
  else if e ≤ eps then (clampR (-c / a) 0 1, 0)
  else
    let b := to_end1.dot to_end2
    let ae := a * e
    let bb := b * b
    let denom := ae - bb
    let s := if eps < denom ∧ ulps ae bb = false then clampR ((b * f - c * e) / denom) 0 1 else 0
    let t := (b * s + f) / e
    if t < 0 then (clampR (-c / a) 0 1, 0)
    else if 1 < t then (clampR ((b - c) / a) 0 1, 1)
    else (s, t)

/-- `impl Collider<Capsule3d> for Capsule3d::get_collisions` (primitives.rs). -/
def Capsule3d.get_collisions_capsule (ulps : ℝ → ℝ → Bool) (self : Capsule3d) (self_iso : Iso)
    (other : Capsule3d) (other_iso : Iso) (pred_dist : ℝ) : List RawContact :=
  let up1 := self_iso.rotation.toFun V3.Y
  let up2 := other_iso.rotation.toFun V3.Y
  let bottom1 := self_iso.translation - self.half_length • up1
  let bottom2 := other_iso.translation - other.half_length • up2
  let to_end1 := (self.half_length * 2) • up1
  let to_end2 := (other.half_length * 2) • up2
  let pq := closest_points_on_segments ulps bottom1 to_end1 bottom2 to_end2
  let p1 := pq.1
  let p2 := pq.2
  let wp1 := bottom1 + p1 • to_end1
  let wp2 := bottom2 + p2 • to_end2
  let offset := V3.dist wp1 wp2
  let dist := offset - self.radius - other.radius
  if pred_dist < dist then []
  else
    let world_normal := if offset = 0 then V3.Y else V3.divS (wp2 - wp1) offset
    let anchor1 := (p1 - self.half_length) • up1 + (self.radius + dist * 0.5) • world_normal
    let world_point := self_iso.translation + anchor1
    let anchor2 := world_point - other_iso.translation
    [⟨FV3.ofV3 world_point, FV3.ofV3 anchor1, FV3.ofV3 anchor2, FV3.ofV3 world_normal, -dist⟩]

/-- `MINIMUM_STEP` (primitives.rs). -/
def MINIMUM_STEP : ℝ := 0.001

/-- `MarchResult` (primitives.rs).  The distance carried by `Closest` starts
from the `f32::INFINITY` sentinel, modelled by `WithTop ℝ`. -/
inductive MarchResult
  | Hit (toi : ℝ) (dist : ℝ)
  | Closest (toi : ℝ) (dist : WithTop ℝ)

/-- `MarchResult::either`. -/
def MarchResult.either : MarchResult → ℝ × WithTop ℝ
  | .Hit a b => (a, (b : WithTop ℝ))
  | .Closest a b => (a, b)

/-- The travel reported by a march result. -/
def MarchResult.toi : MarchResult → ℝ
  | .Hit a _ => a
  | .Closest a _ => a

theorem ceil_step_lt {L t s : ℝ} (h : t < L) (hs : MINIMUM_STEP ≤ s) :
    Nat.ceil ((L - (t + s)) / MINIMUM_STEP) < Nat.ceil ((L - t) / MINIMUM_STEP) := by
  have hM : (0 : ℝ) < MINIMUM_STEP := by norm_num [MINIMUM_STEP]
  set x := (L - t) / MINIMUM_STEP with hx
  have hx0 : 0 < x := div_pos (by linarith) hM
  have hy : (L - (t + s)) / MINIMUM_STEP ≤ x - 1 := by
    rw [hx, div_sub' _ _ _ (ne_of_gt hM)]
    apply div_le_div_of_nonneg_right _ hM.le
    · linarith
  rw [Nat.lt_ceil]
  calc (Nat.ceil ((L - (t + s)) / MINIMUM_STEP) : ℝ)
      ≤ Nat.ceil (x - 1) := by exact_mod_cast Nat.ceil_le_ceil hy
    _ < x := by
        rcases le_or_lt (x - 1) 0 with h0 | h0
        · have : Nat.ceil (x - 1) = 0 := by
            simpa using Nat.ceil_eq_zero.mpr h0
          rw [this]; exact_mod_cast hx0
        · have := Nat.ceil_lt_add_one (le_of_lt h0)
          linarith

/-- The loop of `march_edge` (primitives.rs), with the accumulated travel and
the best `(travel, distance)` pair seen so far as explicit state. -/
def marchGo (sdf : Sdf) (local_start local_direction : V3) (radius length : ℝ)
    (traveled : ℝ) (closest : ℝ × WithTop ℝ) : MarchResult :=
  if h : traveled < length then
    let sdf_local_pos := local_start + traveled • local_direction
    let distance := sdf.distance sdf_local_pos
    if distance ≤ radius then .Hit traveled distance
    else
      marchGo sdf local_start local_direction radius length
        (traveled + max (distance - radius) MINIMUM_STEP)
        (if (distance : WithTop ℝ) < closest.2 then (traveled, (distance : WithTop ℝ))
         else closest)
  else .Closest closest.1 closest.2
termination_by Nat.ceil ((length - traveled) / MINIMUM_STEP)
decreasing_by exact ceil_step_lt h (le_max_right _ _)

/-- `march_edge` (primitives.rs): the loop started at zero travel with the
`(0., f32::INFINITY)` sentinel as best pair. -/
def march_edge (sdf : Sdf) (local_start local_direction : V3) (radius length : ℝ) :
    MarchResult :=
  marchGo sdf local_start local_direction radius length 0 (0, ⊤)

/-- `impl Collider<ExecutableSdf3d> for Capsule3d::get_collisions`
(primitives.rs).  The `dist` extracted from a `Closest` result may be the
infinity sentinel; the contact body (guarded by `dist < radius + pred_dist`)
reads it back as a real with `untop'`. -/
def Capsule3d.get_collisions_sdf (self : Capsule3d) (self_iso : Iso) (sdf : Sdf)
    (sdf_iso : ScaledIso) (pred_dist : ℝ) : List RawContact :=
  let sdf_local_center :=
    V3.divS (sdf_iso.iso.rotation.invFun (self_iso.translation - sdf_iso.iso.translation))
      sdf_iso.scale
  let center_dist := sdf.distance sdf_local_center
  if self.radius + self.half_length + pred_dist < center_dist then []
  else
    let sdf_local_up :=
      V3.divS (sdf_iso.iso.rotation.invFun (self_iso.rotation.toFun V3.Y)) sdf_iso.scale
    let total := self.half_length * 2
    let start := sdf_local_center - self.half_length • sdf_local_up
    let res := march_edge sdf start sdf_local_up self.radius total
    let atd : ℝ × WithTop ℝ × ℝ :=
      match res with
      | .Hit toi d => (toi, (d : WithTop ℝ), total - toi)
      | .Closest toi d => (toi, d, 0)
    let at1 := atd.1
    let dist1 := atd.2.1
    let total2 := atd.2.2
    let part1 : List RawContact :=
      if dist1 < ((self.radius + pred_dist : ℝ) : WithTop ℝ) then
        let d1 := dist1.untop' 0
        let sdf_local_min_point := start + at1 • sdf_local_up
        let gradient := sdf.gradient sdf_local_min_point
        let world_normal := sdf_iso.iso.rotation.toFun (-gradient)
        let pen := self.radius - d1
        let anchor1 :=
          (at1 - self.half_length) • sdf_local_up + (self.radius - pen * 0.5) • world_normal
        let world_point := self_iso.translation + anchor1
        let anchor2 := world_point - sdf_iso.iso.translation
        [⟨FV3.ofV3 world_point, FV3.ofV3 anchor1, FV3.ofV3 anchor2, FV3.ofV3 world_normal, pen⟩]
      else []
    let start2 := sdf_local_center + self.half_length • sdf_local_up
    let res2 := march_edge sdf start2 (-sdf_local_up) self.radius total2
    let atd2 := res2.either
    let at2 := atd2.1
    let dist2 := atd2.2
    let part2 : List RawContact :=
      if dist2 < ((self.radius + pred_dist : ℝ) : WithTop ℝ) then
        let d2 := dist2.untop' 0
        let sdf_local_min_point := start2 - at2 • sdf_local_up
        let gradient := sdf.gradient sdf_local_min_point
        let world_normal := sdf_iso.iso.rotation.toFun (-gradient)
        let pen := self.radius - d2
        let anchor1 :=
          (self.half_length - at2) • sdf_local_up + (self.radius - pen * 0.5) • world_normal
        let world_point := self_iso.translation + anchor1
        let anchor2 := world_point - sdf_iso.iso.translation
        [⟨FV3.ofV3 world_point, FV3.ofV3 anchor1, FV3.ofV3 anchor2, FV3.ofV3 world_normal, pen⟩]
      else []
    part1 ++ part2

/-- `SdfColliderKind` (collider.rs); the `Handle<Sdf3d>` asset reference is
modelled by a numeric identifier. -/
inductive SdfColliderKind
  | sphere (s : Sphere)
  | capsule (c : Capsule3d)
  | arbitrary (handle : ℕ)

/-- `SdfCollider` (collider.rs). -/
structure SdfCollider where
  collider : SdfColliderKind
  scale : ℝ

/-- `ColliderShape` (spatial_query.rs). -/
inductive ColliderShape
  | sphere (s : Sphere)
  | capsule (c : Capsule3d)
  | arbitrary (handle : ℕ)

/-- The field-data lookup collaborator: resolves a handle to its field, or
fails (`context.get`). -/
def SdfContext := ℕ → Option Sdf

/-- `AnyCollider for SdfCollider::contact_manifolds_with_context` (avian.rs).
Returns the manifold contacts in push order, paired with a flag recording
whether the unsupported-pair diagnostic (`warn!`) was emitted. -/
def contact_manifolds_with_context (ulps : ℝ → ℝ → Bool) (self other : SdfCollider)
    (position1 : V3) (rotation1 : Rot) (position2 : V3) (rotation2 : Rot)
    (pred_dist : ℝ) (context : SdfContext) : List Contact × Bool :=
  let iso1 : Iso := ⟨position1, rotation1⟩
  let iso2 : Iso := ⟨position2, rotation2⟩
  let scale1 := self.scale
  let scale2 := other.scale
  match self.collider, other.collider with
  | .sphere s1, .sphere s2 =>
      (applyAll false
        (Sphere.get_collisions_sphere ⟨s1.radius * scale1⟩ iso1 ⟨s2.radius * scale2⟩ iso2
          pred_dist), false)
  | .sphere s1, .capsule c2 =>
      (applyAll false
        (Sphere.get_collisions_capsule ⟨s1.radius * scale1⟩ iso1
          ⟨c2.radius * scale2, c2.half_length * scale2⟩ iso2 pred_dist), false)
  | .capsule c1, .capsule c2 =>
      (applyAll false
        (Capsule3d.get_collisions_capsule ulps ⟨c1.radius * scale1, c1.half_length * scale1⟩
          iso1 ⟨c2.radius * scale2, c2.half_length * scale2⟩ iso2 pred_dist), false)
  | .capsule c1, .sphere s2 =>
      (applyAll true
        (Sphere.get_collisions_capsule ⟨s2.radius * scale2⟩ iso2
          ⟨c1.radius * scale1, c1.half_length * scale1⟩ iso1 pred_dist), false)
  | .sphere s, .arbitrary handle =>
      match context handle with
      | none => ([], false)
      | some sdf =>
          (applyAll false
            (Sphere.get_collisions_sdf ⟨s.radius * scale1⟩ iso1 sdf ⟨iso2, scale2⟩ pred_dist),
            false)
  | .arbitrary handle, .sphere s =>
      match context handle with
      | none => ([], false)
      | some sdf =>
          (applyAll true
            (Sphere.get_collisions_sdf ⟨s.radius * scale2⟩ iso2 sdf ⟨iso1, scale1⟩ pred_dist),
            false)
  | .capsule c, .arbitrary handle =>
      match context handle with
      | none => ([], false)
      | some sdf =>
          (applyAll false
            (Capsule3d.get_collisions_sdf ⟨c.radius * scale1, c.half_length * scale1⟩ iso1 sdf
              ⟨iso2, scale2⟩ pred_dist), false)
  | .arbitrary handle, .capsule c =>
      match context handle with
      | none => ([], false)
      | some sdf =>
          (applyAll true
            (Capsule3d.get_collisions_sdf ⟨c.radius * scale2, c.half_length * scale2⟩ iso2 sdf
              ⟨iso1, scale1⟩ pred_dist), false)
  | .arbitrary _, .arbitrary _ => ([], true)

/-- `QueryCollider for SdfCollider::shape_intersection` (spatial_query.rs).
`none` models the `todo!()` panic reached on the implicit-implicit pair;
`some b` is a normal return of `b`. -/
def shape_intersection (ulps : ℝ → ℝ → Bool) (self : SdfCollider) (shape : ColliderShape)
    (shape_rotation : Rot) (local_origin : V3) (context : SdfContext) : Option Bool :=
  let iso1 : Iso := ⟨0, Rot.id⟩
  let iso2 : Iso := ⟨local_origin, shape_rotation⟩
  let contacts : Option (List Contact) :=
    match self.collider, shape with
    | .sphere s1, .sphere s2 =>
        some (applyAll false (Sphere.get_collisions_sphere s1 iso1 s2 iso2 0))
    | .sphere s1, .capsule c2 =>
        some (applyAll false (Sphere.get_collisions_capsule s1 iso1 c2 iso2 0))
    | .sphere s1, .arbitrary handle2 =>
        match context handle2 with
        | none => some []
        | some sdf2 => some (applyAll false (Sphere.get_collisions_sdf s1 iso1 sdf2 ⟨iso2, 1⟩ 0))
    | .capsule c1, .sphere s2 =>
        some (applyAll true (Sphere.get_collisions_capsule s2 iso2 c1 iso1 0))
    | .capsule c1, .capsule c2 =>
        some (applyAll false (Capsule3d.get_collisions_capsule ulps c1 iso1 c2 iso2 0))
    | .capsule c1, .arbitrary handle2 =>
        match context handle2 with
        | none => some []
        | some sdf2 =>
            some (applyAll false (Capsule3d.get_collisions_sdf c1 iso1 sdf2 ⟨iso2, 1⟩ 0))
    | .arbitrary handle, sh =>
        match context handle with
        | none => some []
        | some sdf1 =>
            match sh with
            | .sphere s2 =>
                some (applyAll true (Sphere.get_collisions_sdf s2 iso2 sdf1 ⟨iso1, 1⟩ 0))
            | .capsule c2 =>
                some (applyAll true (Capsule3d.get_collisions_sdf c2 iso2 sdf1 ⟨iso1, 1⟩ 0))
            | .arbitrary handle2 =>
                match context handle2 with
                | none => some []
                | some _ => none
  contacts.map (fun cs => cs.any fun c => decide (0 ≤ c.penetration))

/-- The raw (pre-adder) contact generation performed for a collider/shape pair
of `shape_intersection`, in the orientation the pair routine supports. -/
def raw_intersection_contacts (ulps : ℝ → ℝ → Bool) (self : SdfCollider)
    (shape : ColliderShape) (shape_rotation : Rot) (local_origin : V3)
    (context : SdfContext) : List RawContact :=
  let iso1 : Iso := ⟨0, Rot.id⟩
  let iso2 : Iso := ⟨local_origin, shape_rotation⟩
  match self.collider, shape with
  | .sphere s1, .sphere s2 => Sphere.get_collisions_sphere s1 iso1 s2 iso2 0
  | .sphere s1, .capsule c2 => Sphere.get_collisions_capsule s1 iso1 c2 iso2 0
  | .sphere s1, .arbitrary handle2 =>
      match context handle2 with
      | none => []
      | some sdf2 => Sphere.get_collisions_sdf s1 iso1 sdf2 ⟨iso2, 1⟩ 0
  | .capsule c1, .sphere s2 => Sphere.get_collisions_capsule s2 iso2 c1 iso1 0
  | .capsule c1, .capsule c2 => Capsule3d.get_collisions_capsule ulps c1 iso1 c2 iso2 0
  | .capsule c1, .arbitrary handle2 =>
      match context handle2 with
      | none => []
      | some sdf2 => Capsule3d.get_collisions_sdf c1 iso1 sdf2 ⟨iso2, 1⟩ 0
  | .arbitrary handle, sh =>
      match context handle with
      | none => []
      | some sdf1 =>
          match sh with
          | .sphere s2 => Sphere.get_collisions_sdf s2 iso2 sdf1 ⟨iso1, 1⟩ 0
          | .capsule c2 => Capsule3d.get_collisions_sdf c2 iso2 sdf1 ⟨iso1, 1⟩ 0
          | .arbitrary _ => []

/-- Whether a collider kind is an implicit surface. -/
def kindIsArb : SdfColliderKind → Bool
  | .arbitrary _ => true
  | _ => false

/-- Whether a query shape is an implicit surface. -/
def shapeIsArb : ColliderShape → Bool
  | .arbitrary _ => true
  | _ => false

/-- The symmetry transform of a contact: anchors swapped, normal negated,
point and penetration unchanged. -/
def flipContact (c : Contact) : Contact :=
  ⟨c.point, c.anchor2, c.anchor1, c.normal.neg, c.penetration⟩

/-- A ray: origin and direction (`Ray3d`). -/
structure Ray where
  origin : V3
  direction : V3

/-- `f32::copysign`: the magnitude of the first argument with the sign of the
second (the sign of a real zero being positive). -/
def copysign (x s : ℝ) : ℝ := if s < 0 then -|x| else |x|

/-- `local_ray_distance_with_sphere` (spatial_query.rs). -/
def local_ray_distance_with_sphere (radius : ℝ) (ray : Ray) (solid : Bool) : Option ℝ :=
  let c := ray.origin.length_squared - radius ^ 2
  if 0 < c then
    let b := ray.origin.dot ray.direction
    if 0 < b then none
    else
      let d := b ^ 2 - c
      let t2 := -b - copysign (Real.sqrt |d|) d
      some t2
  else if solid then some 0
  else
    let b := ray.origin.dot ray.direction
    let d := b ^ 2 - c
    let t1 := -b + Real.sqrt d
    some t1

/-- The `SdfColliderKind::Sphere` arm of
`QueryCollider for SdfCollider::ray_hit` (spatial_query.rs): the hit distance,
`f32::INFINITY` (modelled as `⊤`) when there is none. -/
def ray_hit_sphere (radius : ℝ) (ray : Ray) (tmax : ℝ) (solid : Bool) : WithTop ℝ :=
  match (local_ray_distance_with_sphere radius ray solid).filter
      (fun distance => decide (distance ≤ tmax)) with
  | some d => (d : WithTop ℝ)
  | none => ⊤

/-! ## Claim C2: coincident sphere centers -/

/-- C2.  The claim states that two spheres with exactly identical centers
produce a contact with no NaN component and normal `(0,1,0)`.  The code
instead produces a contact whose point, anchors and normal are all NaN: the
fallback guard compares `self_to_other == Vec3A::NAN`, which is always false
under IEEE semantics, so the `+Y` fallback never fires.  This theorem
evaluates the sphere-sphere routine at the failing input (two unit spheres at
the origin, `pred_dist = 0`): the single contact is all-NaN, and the NaN
vector is not the `(0,1,0)` fallback. -/
theorem sphere_sphere_coincident_centers_nan :
    Sphere.get_collisions_sphere ⟨1⟩ ⟨0, Rot.id⟩ ⟨1⟩ ⟨0, Rot.id⟩ 0 =
      [⟨FV3.nanV, FV3.nanV, FV3.nanV, FV3.nanV, 2⟩] ∧
    FV3.nanV ≠ FV3.ofV3 V3.Y := by
  constructor
  · simp only [Sphere.get_collisions_sphere, V3.dist, V3.length, V3.length_squared,
      V3.sub_def, V3.zero_def]
    norm_num [FV3.div3, F32.divF, FV3.nanV, FV3.beq, F32.beq, FV3.mulR, F32.mulR,
      FV3.addL, F32.addL, FV3.subR, F32.subR]
  · intro h
    have := congrArg FV3.x h
    simp [FV3.nanV, FV3.ofV3] at this

/-! ## Claim C1: speculative margin thresholds -/

/-- The world-scaled field distance at the sphere's center, as computed by the
sphere-implicit-surface routine. -/
def sphereSdfDistance (self_iso : Iso) (sdf : Sdf) (sdf_iso : ScaledIso) : ℝ :=
  sdf.distance
    (V3.divS (sdf_iso.iso.rotation.invFun (self_iso.translation - sdf_iso.iso.translation))
      sdf_iso.scale) * sdf_iso.scale

/-- The center distance of the closest points the capsule-capsule routine
computes on the two axes. -/
def capsuleCapsuleOffset (ulps : ℝ → ℝ → Bool) (self : Capsule3d) (self_iso : Iso)
    (other : Capsule3d) (other_iso : Iso) : ℝ :=
  let up1 := self_iso.rotation.toFun V3.Y
  let up2 := other_iso.rotation.toFun V3.Y
  let bottom1 := self_iso.translation - self.half_length • up1
  let bottom2 := other_iso.translation - other.half_length • up2
  let to_end1 := (self.half_length * 2) • up1
  let to_end2 := (other.half_length * 2) • up2
  let pq := closest_points_on_segments ulps bottom1 to_end1 bottom2 to_end2
  V3.dist (bottom1 + pq.1 • to_end1) (bottom2 + pq.2 • to_end2)

/-- C1 (amended).  Sphere-sphere and capsule-capsule report a contact exactly
when the computed separation is at most `pred_dist` (inclusive threshold),
while sphere vs implicit surface reports a contact exactly when the
world-scaled separation is strictly below `pred_dist`: a sphere-surface pair
whose separation equals `pred_dist` yields zero contacts. -/
theorem margin_threshold_iff (ulps : ℝ → ℝ → Bool) (s1 s2 : Sphere) (c1 c2 : Capsule3d)
    (sp : Sphere) (iso1 iso2 isoc1 isoc2 isos : Iso) (sdf : Sdf) (sdf_iso : ScaledIso)
    (pred_dist : ℝ) :
    (Sphere.get_collisions_sphere s1 iso1 s2 iso2 pred_dist ≠ [] ↔
      V3.dist iso1.translation iso2.translation - s1.radius - s2.radius ≤ pred_dist) ∧
    (Capsule3d.get_collisions_capsule ulps c1 isoc1 c2 isoc2 pred_dist ≠ [] ↔
      capsuleCapsuleOffset ulps c1 isoc1 c2 isoc2 - c1.radius - c2.radius ≤ pred_dist) ∧
    (Sphere.get_collisions_sdf sp isos sdf sdf_iso pred_dist ≠ [] ↔
      sphereSdfDistance isos sdf sdf_iso - sp.radius < pred_dist) := by
  refine ⟨?_, ?_, ?_⟩
  · simp only [Sphere.get_collisions_sphere]
    split_ifs with h h2
    · exact iff_of_false (by simp) (by linarith)
    · exact iff_of_true (by simp) (by linarith)
    · exact iff_of_true (by simp) (by linarith)
  · simp only [Capsule3d.get_collisions_capsule, capsuleCapsuleOffset]
    split_ifs with h h2
    · exact iff_of_false (by simp) (by linarith)
    · exact iff_of_true (by simp) (by linarith)
    · exact iff_of_true (by simp) (by linarith)
  · simp only [Sphere.get_collisions_sdf, sphereSdfDistance]
    split_ifs with h
    · exact iff_of_true (by simp) (by linarith)
    · exact iff_of_false (by simp) (by linarith)

/-- The signed distance field of the half-space `y ≤ 0` (its zero level set is
the plane `y = 0`). -/
def planeSdf : Sdf := ⟨fun p => p.y, fun _ => V3.Y⟩

/-- C1 counterexample.  A unit sphere at `(0,2,0)` against the plane field
`y = 0` at scale 1 with `pred_dist = 1`: the world-scaled separation is
exactly `pred_dist`, yet the routine produces zero contacts, because its
threshold `distance < radius + pred_dist` is strict. -/
theorem sphere_sdf_margin_boundary_no_contact :
    sphereSdfDistance ⟨⟨0, 2, 0⟩, Rot.id⟩ planeSdf ⟨⟨0, Rot.id⟩, 1⟩ - (1 : ℝ) = 1 ∧
    Sphere.get_collisions_sdf ⟨1⟩ ⟨⟨0, 2, 0⟩, Rot.id⟩ planeSdf ⟨⟨0, Rot.id⟩, 1⟩ 1 = [] := by
  constructor
  · norm_num [sphereSdfDistance, planeSdf, V3.divS]
  · rw [Sphere.get_collisions_sdf]
    norm_num [planeSdf, V3.divS]

/-! ## Claim C5: sphere-capsule reduction -/

/-- C5.  Sphere-capsule contact generation yields exactly the manifold of
sphere-sphere generation against a sphere of the capsule's radius centered at
the point of the capsule's world axis at the clamped projection parameter of
the sphere center. -/
theorem sphere_capsule_reduces_to_sphere_sphere (s : Sphere) (self_iso : Iso)
    (cap : Capsule3d) (other_iso : Iso) (pred_dist : ℝ) :
    Sphere.get_collisions_capsule s self_iso cap other_iso pred_dist =
      Sphere.get_collisions_sphere s self_iso ⟨cap.radius⟩
        ⟨other_iso.translation +
            clampR (V3.dot (self_iso.translation - other_iso.translation)
                (other_iso.rotation.toFun V3.Y)) (-cap.half_length) cap.half_length •
              other_iso.rotation.toFun V3.Y,
          other_iso.rotation⟩ pred_dist := by
  have key : ∀ t : ℝ,
      other_iso.rotation.toFun ⟨0, t, 0⟩ = t • other_iso.rotation.toFun V3.Y := by
    intro t
    have h1 : (⟨0, t, 0⟩ : V3) = t • V3.Y := by simp [V3.Y]
    rw [h1, other_iso.rotation.map_smul]
  simp only [Sphere.get_collisions_capsule, Iso.translate, key]

/-! ## Claim C4: flipped-builder symmetry -/

theorem applyAll_true_eq_map_flip (l : List RawContact) :
    applyAll true l = (applyAll false l).map flipContact := by
  simp only [applyAll, List.map_map]
  exact List.map_congr_left (fun r _ => rfl)

/-- C4.  For each shape-pair ordering dispatched through the flipped builder
(capsule-sphere, surface-sphere, surface-capsule), every contact equals the
corresponding contact of the direct evaluation of the swapped pair with the
swapped placements, with anchors swapped and normal negated, while point and
penetration are unchanged (`flipContact`). -/
theorem flipped_dispatch_symmetry (ulps : ℝ → ℝ → Bool) (sc ss : ℝ) (c : Capsule3d)
    (s : Sphere) (h1 : ℕ) (p1 p2 : V3) (r1 r2 : Rot) (pred_dist : ℝ)
    (context : SdfContext) :
    ((contact_manifolds_with_context ulps ⟨.capsule c, sc⟩ ⟨.sphere s, ss⟩ p1 r1 p2 r2
        pred_dist context).1 =
      ((contact_manifolds_with_context ulps ⟨.sphere s, ss⟩ ⟨.capsule c, sc⟩ p2 r2 p1 r1
        pred_dist context).1).map flipContact) ∧
    ((contact_manifolds_with_context ulps ⟨.arbitrary h1, sc⟩ ⟨.sphere s, ss⟩ p1 r1 p2 r2
        pred_dist context).1 =
      ((contact_manifolds_with_context ulps ⟨.sphere s, ss⟩ ⟨.arbitrary h1, sc⟩ p2 r2 p1 r1
        pred_dist context).1).map flipContact) ∧
    ((contact_manifolds_with_context ulps ⟨.arbitrary h1, sc⟩ ⟨.capsule c, ss⟩ p1 r1 p2 r2
        pred_dist context).1 =
      ((contact_manifolds_with_context ulps ⟨.capsule c, ss⟩ ⟨.arbitrary h1, sc⟩ p2 r2 p1 r1
        pred_dist context).1).map flipContact) := by
  refine ⟨?_, ?_, ?_⟩
  · simp only [contact_manifolds_with_context]
    exact applyAll_true_eq_map_flip _
  · simp only [contact_manifolds_with_context]
    rcases hc : context h1 with _ | sdf <;> simp [applyAll_true_eq_map_flip]
  · simp only [contact_manifolds_with_context]
    rcases hc : context h1 with _ | sdf <;> simp [applyAll_true_eq_map_flip]

/-! ## Claim C9: implicit vs implicit -/

/-- A trivially resolvable field, used to exercise the lookup-success paths. -/
def trivialSdf : Sdf := ⟨fun _ => 0, fun _ => V3.Y⟩

/-- C9 counterexample.  With both implicit-surface references resolvable, the
overlap test on an implicit-implicit pair reaches `todo!()` and panics
(modelled as `none`) instead of skipping the pair and completing. -/
theorem implicit_pair_overlap_test_panics :
    shape_intersection (fun _ _ => false) ⟨.arbitrary 0, 1⟩ (.arbitrary 1) Rot.id 0
      (fun _ => some trivialSdf) = none := rfl

/-- C9 (amended).  Contact generation on an implicit-implicit pair emits the
unsupported-pair diagnostic and completes with zero contacts; the overlap
test, however, hits the `todo!()` hard stop (modelled as `none`) whenever both
references resolve, instead of completing. -/
theorem implicit_pair_unsupported (ulps : ℝ → ℝ → Bool) (h1 h2 : ℕ) (sc1 sc2 : ℝ)
    (p1 p2 : V3) (r1 r2 : Rot) (pred_dist : ℝ) (rot : Rot) (o : V3)
    (context : SdfContext) :
    contact_manifolds_with_context ulps ⟨.arbitrary h1, sc1⟩ ⟨.arbitrary h2, sc2⟩ p1 r1 p2 r2
        pred_dist context = ([], true) ∧
    (∀ s1 s2 : Sdf, context h1 = some s1 → context h2 = some s2 →
      shape_intersection ulps ⟨.arbitrary h1, sc1⟩ (.arbitrary h2) rot o context = none) := by
  constructor
  · rfl
  · intro s1 s2 e1 e2
    simp [shape_intersection, e1, e2]

/-! ## Claim C10: ray-sphere with negative discriminant -/

/-- C10.  For a ray origin strictly outside the sphere (`c > 0`) that does not
point away from it (`b ≤ 0`), a negative discriminant `b² - c < 0` still
produces `Some`: the returned distance is `-b + √(c - b²)` rather than no hit.
The closed conjuncts instantiate this through `ray_hit`: the ray from
`(1,2,0)` along `(0,0,1)` stays strictly outside the unit sphere for every
travel, yet `ray_hit` reports the finite distance `2`. -/
theorem ray_sphere_negative_discriminant (radius : ℝ) (ray : Ray) (solid : Bool)
    (hc : 0 < ray.origin.length_squared - radius ^ 2)
    (hb : ray.origin.dot ray.direction ≤ 0)
    (hd : (ray.origin.dot ray.direction) ^ 2 - (ray.origin.length_squared - radius ^ 2) < 0) :
    local_ray_distance_with_sphere radius ray solid =
      some (-(ray.origin.dot ray.direction) +
        Real.sqrt ((ray.origin.length_squared - radius ^ 2) -
          (ray.origin.dot ray.direction) ^ 2)) ∧
    (∀ t : ℝ, (1 : ℝ) < V3.length_squared ((⟨1, 2, 0⟩ : V3) + t • (⟨0, 0, 1⟩ : V3))) ∧
    ray_hit_sphere 1 ⟨⟨1, 2, 0⟩, ⟨0, 0, 1⟩⟩ 3 true = ((2 : ℝ) : WithTop ℝ) := by
  refine ⟨?_, ?_, ?_⟩
  · rw [local_ray_distance_with_sphere]
    rw [if_pos hc, if_neg (not_lt.mpr hb)]
    simp only [copysign]
    rw [if_pos hd, abs_of_neg hd, abs_of_nonneg (Real.sqrt_nonneg _)]
    ring_nf
  · intro t
    simp only [V3.length_squared, V3.smul_def, V3.add_def]
    nlinarith [sq_nonneg t]
  · have h4 : Real.sqrt 4 = 2 := by
      rw [show (4 : ℝ) = 2 ^ 2 by norm_num, Real.sqrt_sq (by norm_num)]
    rw [ray_hit_sphere, local_ray_distance_with_sphere]
    norm_num [V3.length_squared, V3.dot, copysign, h4, Option.filter]

/-! ## Claim C3: overlap test vs contact generation -/

theorem any_applyAll (flipped : Bool) (l : List RawContact) :
    ((applyAll flipped l).any fun c => decide (0 ≤ c.penetration)) = true ↔
      ∃ r ∈ l, 0 ≤ r.penetration := by
  simp [applyAll, List.any_map, List.any_eq_true, applyAdder, Function.comp]

/-- C3.  For every supported collider/shape pairing (everything except the
implicit-implicit pair), `shape_intersection` returns normally, and returns
`true` exactly when contact generation for that pair with zero speculative
margin yields at least one contact with non-negative penetration. -/
theorem shape_intersection_iff_contact (ulps : ℝ → ℝ → Bool) (self : SdfCollider)
    (shape : ColliderShape) (shape_rotation : Rot) (local_origin : V3)
    (context : SdfContext)
    (h : (kindIsArb self.collider && shapeIsArb shape) = false) :
    ∃ b, shape_intersection ulps self shape shape_rotation local_origin context = some b ∧
      (b = true ↔ ∃ r ∈ raw_intersection_contacts ulps self shape shape_rotation local_origin
          context, 0 ≤ r.penetration) := by
  obtain ⟨k, sc⟩ := self
  cases k with
  | sphere s1 =>
    cases shape with
    | sphere s2 => exact ⟨_, rfl, any_applyAll false _⟩
    | capsule c2 => exact ⟨_, rfl, any_applyAll false _⟩
    | arbitrary h2 =>
      rcases e : context h2 with _ | sdf2
      · refine ⟨false, ?_, by simp [raw_intersection_contacts, e]⟩
        simp [shape_intersection, e]
      · refine ⟨(applyAll false (Sphere.get_collisions_sdf s1 ⟨0, Rot.id⟩ sdf2
            ⟨⟨local_origin, shape_rotation⟩, 1⟩ 0)).any
            (fun c => decide (0 ≤ c.penetration)), ?_, ?_⟩
        · simp [shape_intersection, e]
        · simp only [raw_intersection_contacts, e]
          exact any_applyAll false _
  | capsule c1 =>
    cases shape with
    | sphere s2 => exact ⟨_, rfl, any_applyAll true _⟩
    | capsule c2 => exact ⟨_, rfl, any_applyAll false _⟩
    | arbitrary h2 =>
      rcases e : context h2 with _ | sdf2
      · refine ⟨false, ?_, by simp [raw_intersection_contacts, e]⟩
        simp [shape_intersection, e]
      · refine ⟨(applyAll false (Capsule3d.get_collisions_sdf c1 ⟨0, Rot.id⟩ sdf2
            ⟨⟨local_origin, shape_rotation⟩, 1⟩ 0)).any
            (fun c => decide (0 ≤ c.penetration)), ?_, ?_⟩
        · simp [shape_intersection, e]
        · simp only [raw_intersection_contacts, e]
          exact any_applyAll false _
  | arbitrary h1 =>
    rcases e : context h1 with _ | sdf1
    · refine ⟨false, ?_, ?_⟩
      · cases shape <;> simp [shape_intersection, e]
      · cases shape <;> simp [raw_intersection_contacts, e]
    · cases shape with
      | sphere s2 =>
        refine ⟨(applyAll true (Sphere.get_collisions_sdf s2 ⟨local_origin, shape_rotation⟩
            sdf1 ⟨⟨0, Rot.id⟩, 1⟩ 0)).any (fun c => decide (0 ≤ c.penetration)), ?_, ?_⟩
        · simp [shape_intersection, e]
        · simp only [raw_intersection_contacts, e]
          exact any_applyAll true _
      | capsule c2 =>
        refine ⟨(applyAll true (Capsule3d.get_collisions_sdf c2 ⟨local_origin, shape_rotation⟩
            sdf1 ⟨⟨0, Rot.id⟩, 1⟩ 0)).any (fun c => decide (0 ≤ c.penetration)), ?_, ?_⟩
        · simp [shape_intersection, e]
        · simp only [raw_intersection_contacts, e]
          exact any_applyAll true _
      | arbitrary h2 => simp [kindIsArb, shapeIsArb] at h

/-! ## Claim C8: margin monotonicity -/

theorem ite_guard_sublist {α : Type} {P Q : Prop} [Decidable P] [Decidable Q]
    {l l' : List α} (h : Q → P) (hsub : l.Sublist l') :
    (if P then ([] : List α) else l).Sublist (if Q then ([] : List α) else l') := by
  by_cases hq : Q
  · simp [hq, h hq]
  · rw [if_neg hq]
    by_cases hp : P
    · simp [hp]
    · simpa [hp] using hsub

theorem ite_single_sublist {α : Type} {P Q : Prop} [Decidable P] [Decidable Q]
    {l : List α} (h : P → Q) :
    (if P then l else []).Sublist (if Q then l else []) := by
  by_cases hp : P
  · simp [hp, h hp]
  · simp [hp]

/-- C8.  Increasing the speculative margin never removes a contact: for
`pred_dist ≤ pred_dist'` the manifold generated at the smaller margin is a
sublist (with identical contacts, hence identical normal directions) of the
manifold generated at the larger margin, for the sphere-sphere and
capsule-implicit-surface routines. -/
theorem margin_monotone (s1 s2 : Sphere) (iso1 iso2 : Iso) (c : Capsule3d) (isoc : Iso)
    (sdf : Sdf) (sdf_iso : ScaledIso) (pred_dist pred_dist' : ℝ)
    (h : pred_dist ≤ pred_dist') :
    (Sphere.get_collisions_sphere s1 iso1 s2 iso2 pred_dist).Sublist
        (Sphere.get_collisions_sphere s1 iso1 s2 iso2 pred_dist') ∧
    (Capsule3d.get_collisions_sdf c isoc sdf sdf_iso pred_dist).Sublist
        (Capsule3d.get_collisions_sdf c isoc sdf sdf_iso pred_dist') := by
  constructor
  · simp only [Sphere.get_collisions_sphere]
    exact ite_guard_sublist (fun hq => lt_of_le_of_lt h hq) (List.Sublist.refl _)
  · simp only [Capsule3d.get_collisions_sdf]
    apply ite_guard_sublist
    · intro hq; linarith
    · apply List.Sublist.append
      · apply ite_single_sublist
        intro hlt
        exact lt_of_lt_of_le hlt (WithTop.coe_le_coe.mpr (by linarith))
      · apply ite_single_sublist
        intro hlt
        exact lt_of_lt_of_le hlt (WithTop.coe_le_coe.mpr (by linarith))

/-! ## Claims C6 and C7: the field marcher -/

section March

variable (sdf : Sdf) (s dir : V3) (radius length : ℝ)

/-- The successive travel distances at which the march loop samples the field:
start at zero travel, advance by `max (distance - radius) MINIMUM_STEP`. -/
def sampleTravel : ℕ → ℝ
  | 0 => 0
  | n + 1 =>
    sampleTravel n + max (sdf.distance (s + sampleTravel n • dir) - radius) MINIMUM_STEP

/-- The field distance sampled at step `n`. -/
def sampleDist (n : ℕ) : ℝ :=
  sdf.distance (s + sampleTravel sdf s dir radius n • dir)

/-- The best (travel, distance) pair among the first `k` samples, earliest
minimum first, starting from the `(0, ∞)` sentinel. -/
def bestPair : ℕ → ℝ × WithTop ℝ
  | 0 => (0, ⊤)
  | k + 1 =>
    if (sampleDist sdf s dir radius k : WithTop ℝ) < (bestPair k).2 then
      (sampleTravel sdf s dir radius k, (sampleDist sdf s dir radius k : WithTop ℝ))
    else bestPair k

theorem marchGo_stop (traveled : ℝ) (closest : ℝ × WithTop ℝ) (h : ¬ traveled < length) :
    marchGo sdf s dir radius length traveled closest = .Closest closest.1 closest.2 := by
  rw [marchGo]
  exact dif_neg h

theorem marchGo_hit (traveled : ℝ) (closest : ℝ × WithTop ℝ) (h : traveled < length)
    (hd : sdf.distance (s + traveled • dir) ≤ radius) :
    marchGo sdf s dir radius length traveled closest =
      .Hit traveled (sdf.distance (s + traveled • dir)) := by
  rw [marchGo, dif_pos h]
  dsimp only
  rw [if_pos hd]

theorem marchGo_step (traveled : ℝ) (closest : ℝ × WithTop ℝ) (h : traveled < length)
    (hd : ¬ sdf.distance (s + traveled • dir) ≤ radius) :
    marchGo sdf s dir radius length traveled closest =
      marchGo sdf s dir radius length
        (traveled + max (sdf.distance (s + traveled • dir) - radius) MINIMUM_STEP)
        (if (sdf.distance (s + traveled • dir) : WithTop ℝ) < closest.2 then
          (traveled, (sdf.distance (s + traveled • dir) : WithTop ℝ)) else closest) := by
  conv_lhs => rw [marchGo]
  rw [dif_pos h]
  dsimp only
  rw [if_neg hd]

theorem march_edge_run (k : ℕ)
    (hk : ∀ j, j < k → sampleTravel sdf s dir radius j < length ∧
      radius < sampleDist sdf s dir radius j) :
    march_edge sdf s dir radius length =
      marchGo sdf s dir radius length (sampleTravel sdf s dir radius k)
        (bestPair sdf s dir radius k) := by
  induction k with
  | zero => rfl
  | succ k ih =>
    have hj := hk k (Nat.lt_succ_self k)
    rw [ih (fun j hjk => hk j (Nat.lt_succ_of_lt hjk))]
    rw [marchGo_step sdf s dir radius length _ _ hj.1 (not_le.mpr hj.2)]
    rfl

theorem sampleTravel_lt_succ (n : ℕ) :
    sampleTravel sdf s dir radius n < sampleTravel sdf s dir radius (n + 1) := by
  have hM : (0 : ℝ) < MINIMUM_STEP := by norm_num [MINIMUM_STEP]
  have h2 :=
    le_max_right (sdf.distance (s + sampleTravel sdf s dir radius n • dir) - radius)
      MINIMUM_STEP
  simp only [sampleTravel]
  linarith

theorem sampleTravel_mono : Monotone (sampleTravel sdf s dir radius) :=
  monotone_nat_of_le_succ fun n => (sampleTravel_lt_succ sdf s dir radius n).le

theorem le_sampleTravel (n : ℕ) :
    (n : ℝ) * MINIMUM_STEP ≤ sampleTravel sdf s dir radius n := by
  induction n with
  | zero => simp [sampleTravel]
  | succ n ih =>
    have h2 :=
      le_max_right (sdf.distance (s + sampleTravel sdf s dir radius n • dir) - radius)
        MINIMUM_STEP
    simp only [sampleTravel]
    push_cast
    linarith

theorem bestPair_mem (k : ℕ) (hk : 1 ≤ k) :
    ∃ m, m < k ∧
      bestPair sdf s dir radius k =
        (sampleTravel sdf s dir radius m, (sampleDist sdf s dir radius m : WithTop ℝ)) ∧
      ∀ j, j < k → sampleDist sdf s dir radius m ≤ sampleDist sdf s dir radius j := by
  induction k with
  | zero => omega
  | succ k ih =>
    rcases Nat.eq_zero_or_pos k with hk0 | hkpos
    · subst hk0
      refine ⟨0, Nat.zero_lt_one, ?_, ?_⟩
      · simp [bestPair]
      · intro j hj
        have : j = 0 := Nat.lt_one_iff.mp hj
        subst this
        exact le_refl _
    · obtain ⟨m, hmk, hbest, hmin⟩ := ih hkpos
      by_cases hlt :
        (sampleDist sdf s dir radius k : WithTop ℝ) < (bestPair sdf s dir radius k).2
      · refine ⟨k, Nat.lt_succ_self k, ?_, ?_⟩
        · simp only [bestPair]
          rw [if_pos hlt]
        · intro j hj
          rcases Nat.lt_succ_iff_lt_or_eq.mp hj with hj' | hj'
          · rw [hbest] at hlt
            have hk2 : sampleDist sdf s dir radius k < sampleDist sdf s dir radius m := by
              simpa using hlt
            exact le_trans hk2.le (hmin j hj')
          · subst hj'
            exact le_refl _
      · refine ⟨m, Nat.lt_succ_of_lt hmk, ?_, ?_⟩
        · simp only [bestPair]
          rw [if_neg hlt]
          exact hbest
        · intro j hj
          rcases Nat.lt_succ_iff_lt_or_eq.mp hj with hj' | hj'
          · exact hmin j hj'
          · subst hj'
            rw [hbest] at hlt
            simpa using not_lt.mp hlt

end March

/-- C6.  `march_edge` samples the field at travels starting from 0, advancing
by `max (distance - radius) MINIMUM_STEP` with `MINIMUM_STEP = 0.001`
(`sampleTravel`): it returns `Hit (travel, distance)` at the first sample
within the length bound whose distance is at most `radius`; if every sample
within the bound stays above `radius`, it returns `Closest` with a sampled
(travel, distance) pair of minimum distance among all samples within the
bound. -/
theorem march_edge_spec (sdf : Sdf) (s dir : V3) (radius length : ℝ) :
    MINIMUM_STEP = 0.001 ∧
    (∀ n, sampleTravel sdf s dir radius n < length →
      sampleDist sdf s dir radius n ≤ radius →
      (∀ j, j < n → radius < sampleDist sdf s dir radius j) →
      march_edge sdf s dir radius length =
        .Hit (sampleTravel sdf s dir radius n) (sampleDist sdf s dir radius n)) ∧
    (0 < length →
      (∀ n, sampleTravel sdf s dir radius n < length →
        radius < sampleDist sdf s dir radius n) →
      ∃ n, sampleTravel sdf s dir radius n < length ∧
        march_edge sdf s dir radius length =
          .Closest (sampleTravel sdf s dir radius n)
            ((sampleDist sdf s dir radius n : WithTop ℝ)) ∧
        ∀ m, sampleTravel sdf s dir radius m < length →
          sampleDist sdf s dir radius n ≤ sampleDist sdf s dir radius m) := by
  have hM : (0 : ℝ) < MINIMUM_STEP := by norm_num [MINIMUM_STEP]
  refine ⟨rfl, ?_, ?_⟩
  · intro n h1 h2 h3
    rw [march_edge_run sdf s dir radius length n
      (fun j hj => ⟨lt_of_le_of_lt (sampleTravel_mono sdf s dir radius hj.le) h1, h3 j hj⟩)]
    exact marchGo_hit sdf s dir radius length _ _ h1 h2
  · intro hlen hno
    obtain ⟨n0, hn0⟩ := exists_nat_ge (length / MINIMUM_STEP)
    have hex : ∃ n, length ≤ sampleTravel sdf s dir radius n := by
      refine ⟨n0, le_trans ?_ (le_sampleTravel sdf s dir radius n0)⟩
      rw [div_le_iff hM] at hn0
      linarith
    have hN : length ≤ sampleTravel sdf s dir radius (Nat.find hex) := Nat.find_spec hex
    have hltN : ∀ j, j < Nat.find hex → sampleTravel sdf s dir radius j < length :=
      fun j hj => lt_of_not_le (Nat.find_min hex hj)
    have hN1 : 1 ≤ Nat.find hex := by
      rcases Nat.eq_zero_or_pos (Nat.find hex) with h0 | h1
      · exfalso
        rw [h0] at hN
        simp only [sampleTravel] at hN
        linarith
      · exact h1
    rw [march_edge_run sdf s dir radius length (Nat.find hex)
      (fun j hj => ⟨hltN j hj, hno j (hltN j hj)⟩)]
    rw [marchGo_stop sdf s dir radius length _ _ (not_lt.mpr hN)]
    obtain ⟨m, hmN, hbest, hmin⟩ := bestPair_mem sdf s dir radius (Nat.find hex) hN1
    refine ⟨m, hltN m hmN, ?_, ?_⟩
    · rw [hbest]
    · intro m' hm'
      have hm'N : m' < Nat.find hex := by
        by_contra hc
        push_neg at hc
        have := sampleTravel_mono sdf s dir radius hc
        linarith
      exact hmin m' hm'N

/-- The number of field samples the loop of `march_edge` takes from a given
travel state. -/
def marchCountGo (sdf : Sdf) (local_start local_direction : V3)
    (radius length traveled : ℝ) : ℕ :=
  if h : traveled < length then
    if sdf.distance (local_start + traveled • local_direction) ≤ radius then 1
    else
      1 + marchCountGo sdf local_start local_direction radius length
        (traveled +
          max (sdf.distance (local_start + traveled • local_direction) - radius) MINIMUM_STEP)
  else 0
termination_by Nat.ceil ((length - traveled) / MINIMUM_STEP)
decreasing_by exact ceil_step_lt h (le_max_right _ _)

/-- The number of field samples taken by `march_edge`. -/
def march_count (sdf : Sdf) (s dir : V3) (radius length : ℝ) : ℕ :=
  marchCountGo sdf s dir radius length 0

theorem marchCountGo_le (sdf : Sdf) (s dir : V3) (radius length : ℝ) :
    ∀ (m : ℕ) (t : ℝ), Nat.ceil ((length - t) / MINIMUM_STEP) ≤ m →
      marchCountGo sdf s dir radius length t ≤ Nat.ceil ((length - t) / MINIMUM_STEP) := by
  have hM : (0 : ℝ) < MINIMUM_STEP := by norm_num [MINIMUM_STEP]
  intro m
  induction m with
  | zero =>
    intro t hm
    rw [marchCountGo]
    have hnot : ¬ t < length := by
      intro hlt
      have hx : (0 : ℝ) < (length - t) / MINIMUM_STEP := div_pos (by linarith) hM
      have h0 : 0 < Nat.ceil ((length - t) / MINIMUM_STEP) := by
        rw [Nat.lt_ceil]
        exact_mod_cast hx
      omega
    rw [dif_neg hnot]
    exact Nat.zero_le _
  | succ m ih =>
    intro t hm
    rw [marchCountGo]
    split_ifs with h1 h2
    · have hx : (0 : ℝ) < (length - t) / MINIMUM_STEP := div_pos (by linarith) hM
      have h0 : 0 < Nat.ceil ((length - t) / MINIMUM_STEP) := by
        rw [Nat.lt_ceil]
        exact_mod_cast hx
      omega
    · have hdec := ceil_step_lt h1
        (le_max_right (sdf.distance (s + t • dir) - radius) MINIMUM_STEP)
      have hrec := ih (t + max (sdf.distance (s + t • dir) - radius) MINIMUM_STEP) (by omega)
      omega
    · exact Nat.zero_le _

theorem marchGo_toi_aux (sdf : Sdf) (s dir : V3) (radius length : ℝ) :
    ∀ (m : ℕ) (t : ℝ) (c : ℝ × WithTop ℝ),
      Nat.ceil ((length - t) / MINIMUM_STEP) ≤ m → (c.1 = 0 ∨ c.1 < length) →
      ((marchGo sdf s dir radius length t c).toi = 0 ∨
        (marchGo sdf s dir radius length t c).toi < length) := by
  have hM : (0 : ℝ) < MINIMUM_STEP := by norm_num [MINIMUM_STEP]
  intro m
  induction m with
  | zero =>
    intro t c hm hc
    have hnot : ¬ t < length := by
      intro hlt
      have hx : (0 : ℝ) < (length - t) / MINIMUM_STEP := div_pos (by linarith) hM
      have h0 : 0 < Nat.ceil ((length - t) / MINIMUM_STEP) := by
        rw [Nat.lt_ceil]
        exact_mod_cast hx
      omega
    rw [marchGo_stop sdf s dir radius length _ _ hnot]
    exact hc
  | succ m ih =>
    intro t c hm hc
    by_cases h1 : t < length
    · by_cases h2 : sdf.distance (s + t • dir) ≤ radius
      · rw [marchGo_hit sdf s dir radius length _ _ h1 h2]
        exact Or.inr h1
      · rw [marchGo_step sdf s dir radius length _ _ h1 h2]
        have hdec := ceil_step_lt h1
          (le_max_right (sdf.distance (s + t • dir) - radius) MINIMUM_STEP)
        apply ih _ _ (by omega)
        by_cases hup : (sdf.distance (s + t • dir) : WithTop ℝ) < c.2
        · rw [if_pos hup]
          exact Or.inr h1
        · rw [if_neg hup]
          exact hc
    · rw [marchGo_stop sdf s dir radius length _ _ h1]
      exact hc

/-- C7.  The marcher always terminates: the number of field samples it takes
is at most `⌈length / MINIMUM_STEP⌉`, and the travel at which it stops (the
reported time of impact or closest travel) is always a sampled travel, hence
zero or strictly below `length`; in particular the stopping travel never
exceeds `length` by more than the single step taken past the last sample. -/
theorem march_edge_bounds (sdf : Sdf) (s dir : V3) (radius length : ℝ) :
    march_count sdf s dir radius length ≤ Nat.ceil (length / MINIMUM_STEP) ∧
    ((march_edge sdf s dir radius length).toi = 0 ∨
      (march_edge sdf s dir radius length).toi < length) := by
  constructor
  · have h := marchCountGo_le sdf s dir radius length (Nat.ceil (length / MINIMUM_STEP)) 0
      (by simp)
    simpa [march_count] using h
  · exact marchGo_toi_aux sdf s dir radius length (Nat.ceil (length / MINIMUM_STEP)) 0 (0, ⊤)
      (by simp) (Or.inl rfl)

/-! ## Witnesses -/

/-- Witness for C3 at a concrete sphere-sphere pair. -/
theorem shape_intersection_iff_contact_witness :
    ((kindIsArb (SdfColliderKind.sphere ⟨1⟩) && shapeIsArb (ColliderShape.sphere ⟨1⟩)) =
      false) ∧
    ∃ b, shape_intersection (fun _ _ => false) ⟨.sphere ⟨1⟩, 1⟩ (.sphere ⟨1⟩) Rot.id
        ⟨0, 1, 0⟩ (fun _ => none) = some b ∧
      (b = true ↔ ∃ r ∈ raw_intersection_contacts (fun _ _ => false) ⟨.sphere ⟨1⟩, 1⟩
          (.sphere ⟨1⟩) Rot.id ⟨0, 1, 0⟩ (fun _ => none), 0 ≤ r.penetration) :=
  ⟨rfl, shape_intersection_iff_contact (fun _ _ => false) ⟨.sphere ⟨1⟩, 1⟩ (.sphere ⟨1⟩)
    Rot.id ⟨0, 1, 0⟩ (fun _ => none) rfl⟩

/-- Witness for C8 at concrete placements with margins `0 ≤ 1`. -/
theorem margin_monotone_witness :
    (0 : ℝ) ≤ 1 ∧
    (Sphere.get_collisions_sphere ⟨1⟩ ⟨0, Rot.id⟩ ⟨1⟩ ⟨⟨3, 0, 0⟩, Rot.id⟩ 0).Sublist
      (Sphere.get_collisions_sphere ⟨1⟩ ⟨0, Rot.id⟩ ⟨1⟩ ⟨⟨3, 0, 0⟩, Rot.id⟩ 1) ∧
    (Capsule3d.get_collisions_sdf ⟨1, 1⟩ ⟨0, Rot.id⟩ trivialSdf ⟨⟨0, Rot.id⟩, 1⟩ 0).Sublist
      (Capsule3d.get_collisions_sdf ⟨1, 1⟩ ⟨0, Rot.id⟩ trivialSdf ⟨⟨0, Rot.id⟩, 1⟩ 1) :=
  ⟨by norm_num,
    (margin_monotone ⟨1⟩ ⟨1⟩ ⟨0, Rot.id⟩ ⟨⟨3, 0, 0⟩, Rot.id⟩ ⟨1, 1⟩ ⟨0, Rot.id⟩ trivialSdf
      ⟨⟨0, Rot.id⟩, 1⟩ 0 1 (by norm_num)).1,
    (margin_monotone ⟨1⟩ ⟨1⟩ ⟨0, Rot.id⟩ ⟨⟨3, 0, 0⟩, Rot.id⟩ ⟨1, 1⟩ ⟨0, Rot.id⟩ trivialSdf
      ⟨⟨0, Rot.id⟩, 1⟩ 0 1 (by norm_num)).2⟩

/-- Witness for C9: both lookups resolve, contact generation reports the
diagnostic with zero contacts, and the overlap test panics. -/
theorem implicit_pair_unsupported_witness :
    ((fun _ : ℕ => some trivialSdf) 0 = some trivialSdf) ∧
    contact_manifolds_with_context (fun _ _ => false) ⟨.arbitrary 0, 1⟩ ⟨.arbitrary 1, 1⟩
      0 Rot.id 0 Rot.id 0 (fun _ => some trivialSdf) = ([], true) ∧
    shape_intersection (fun _ _ => false) ⟨.arbitrary 0, 1⟩ (.arbitrary 1) Rot.id 0
      (fun _ => some trivialSdf) = none := by
  have h := implicit_pair_unsupported (fun _ _ => false) 0 1 1 1 0 0 Rot.id Rot.id 0 Rot.id 0
    (fun _ => some trivialSdf)
  exact ⟨rfl, h.1, h.2 trivialSdf trivialSdf rfl rfl⟩

/-- Witness for C10: the concrete ray `(1,2,0) + t(0,0,1)` against the unit
sphere, whose discriminant is negative. -/
theorem ray_sphere_negative_discriminant_witness :
    (0 : ℝ) < V3.length_squared ⟨1, 2, 0⟩ - 1 ^ 2 ∧
    V3.dot ⟨1, 2, 0⟩ ⟨0, 0, 1⟩ ≤ 0 ∧
    (V3.dot ⟨1, 2, 0⟩ ⟨0, 0, 1⟩) ^ 2 - (V3.length_squared ⟨1, 2, 0⟩ - 1 ^ 2) < 0 ∧
    local_ray_distance_with_sphere 1 ⟨⟨1, 2, 0⟩, ⟨0, 0, 1⟩⟩ true =
      some (-(V3.dot ⟨1, 2, 0⟩ ⟨0, 0, 1⟩) +
        Real.sqrt ((V3.length_squared ⟨1, 2, 0⟩ - 1 ^ 2) -
          (V3.dot ⟨1, 2, 0⟩ ⟨0, 0, 1⟩) ^ 2)) := by
  have h1 : (0 : ℝ) < V3.length_squared ⟨1, 2, 0⟩ - 1 ^ 2 := by
    norm_num [V3.length_squared]
  have h2 : V3.dot (⟨1, 2, 0⟩ : V3) ⟨0, 0, 1⟩ ≤ 0 := by norm_num [V3.dot]
  have h3 : (V3.dot (⟨1, 2, 0⟩ : V3) ⟨0, 0, 1⟩) ^ 2 -
      (V3.length_squared ⟨1, 2, 0⟩ - 1 ^ 2) < 0 := by
    norm_num [V3.dot, V3.length_squared]
  exact ⟨h1, h2, h3,
    (ray_sphere_negative_discriminant 1 ⟨⟨1, 2, 0⟩, ⟨0, 0, 1⟩⟩ true h1 h2 h3).1⟩

/-- A concrete field for the marching witness: signed distance `5 - x`. -/
def marchWitnessSdf : Sdf := ⟨fun p => 5 - p.x, fun _ => V3.Y⟩

/-- Witness for C6: marching from the origin along `+x` with radius 1 against
the field `5 - x` samples distance 5 at travel 0, steps by 4, and hits at the
second sample. -/
theorem march_edge_spec_witness :
    sampleTravel marchWitnessSdf 0 ⟨1, 0, 0⟩ 1 1 < 100 ∧
    sampleDist marchWitnessSdf 0 ⟨1, 0, 0⟩ 1 1 ≤ 1 ∧
    (∀ j, j < 1 → (1 : ℝ) < sampleDist marchWitnessSdf 0 ⟨1, 0, 0⟩ 1 j) ∧
    march_edge marchWitnessSdf 0 ⟨1, 0, 0⟩ 1 100 =
      .Hit (sampleTravel marchWitnessSdf 0 ⟨1, 0, 0⟩ 1 1)
        (sampleDist marchWitnessSdf 0 ⟨1, 0, 0⟩ 1 1) := by
  have h0 : sampleTravel marchWitnessSdf 0 ⟨1, 0, 0⟩ 1 0 = 0 := rfl
  have h1 : sampleTravel marchWitnessSdf 0 ⟨1, 0, 0⟩ 1 1 = 4 := by
    have he : sampleTravel marchWitnessSdf 0 ⟨1, 0, 0⟩ 1 1 =
        sampleTravel marchWitnessSdf 0 ⟨1, 0, 0⟩ 1 0 +
          max (marchWitnessSdf.distance
            ((0 : V3) + sampleTravel marchWitnessSdf 0 ⟨1, 0, 0⟩ 1 0 • ⟨1, 0, 0⟩) - 1)
            MINIMUM_STEP := rfl
    rw [he, h0]
    norm_num [marchWitnessSdf, MINIMUM_STEP, max_def]
  have hd0 : sampleDist marchWitnessSdf 0 ⟨1, 0, 0⟩ 1 0 = 5 := by
    rw [sampleDist, h0]
    norm_num [marchWitnessSdf]
  have hd1 : sampleDist marchWitnessSdf 0 ⟨1, 0, 0⟩ 1 1 = 1 := by
    rw [sampleDist, h1]
    norm_num [marchWitnessSdf]
  have hj : ∀ j, j < 1 → (1 : ℝ) < sampleDist marchWitnessSdf 0 ⟨1, 0, 0⟩ 1 j := by
    intro j hjlt
    have hj0 : j = 0 := Nat.lt_one_iff.mp hjlt
    subst hj0
    rw [hd0]
    norm_num
  refine ⟨by rw [h1]; norm_num, by rw [hd1], hj, ?_⟩
  exact (march_edge_spec marchWitnessSdf 0 ⟨1, 0, 0⟩ 1 100).2.1 1 (by rw [h1]; norm_num)
    (by rw [hd1]) hj

end

end SdfPeck
